import Mathlib

/-!
Verification of the fuzzy postal-code search core of `zipcode-to-address`
(`src/services/search-service.js`, with the store interface of
`src/database/schema.js`).

Modelling conventions:
* JavaScript strings are embedded as `List Char` (`Str`).  JS string
  methods used by the service (`trim`, `toUpperCase`, `toLowerCase`,
  `substring(0, n)`, `.length`, `[i]`, `includes`, `localeCompare`) are
  given as list functions below.  `localeCompare` is modelled as
  code-unit lexicographic comparison; `trim` strips the common
  whitespace characters.
* JS numbers are embedded as exact rationals (`ℚ`); the float literals
  `0.1`, `0.2`, `0.5`, `0.01`, `0.6` of the source become the rationals
  they denote.
* Nullable text columns of the store (`place_name`, `admin_*`) are
  embedded as `Str` with `[]` for SQL `NULL`: the service only tests
  them for truthiness (where `null` and `""` agree) or compares them
  against non-empty strings.  The nullable `accuracy` column is
  `Option ℤ`, because the sort comparator distinguishes `null` from `0`
  (`a.accuracy !== b.accuracy` is true for `null` vs `0`).
* The store (`database.getStatements()`) is an injected collaborator;
  it is embedded as a record of oracle functions (`Statements`).
* `Array.prototype.sort` (guaranteed stable by ECMA-262) is embedded as
  a stable insertion sort on the comparator.
* Wall-clock fields (`searchTime`) and the logger are not modelled;
  `try`/`catch` arms are dead in a total model and are dropped.
-/

namespace PostalSearch

/-- JS strings as lists of characters. -/
abbrev Str : Type := List Char

/-- Coerce a Lean string literal to the model's string type. -/
def strL (s : String) : Str := s.toList

/-- The whitespace characters stripped by `String.prototype.trim`
(restricted to the common ASCII whitespace). -/
def isJsWhitespace (c : Char) : Bool :=
  c == ' ' || c == '\t' || c == '\n' || c == '\r'

/-- JS `s.trim()`. -/
def jsTrim (s : Str) : Str :=
  ((s.dropWhile isJsWhitespace).reverse.dropWhile isJsWhitespace).reverse

/-- JS `s.toUpperCase()` (per character, as for the ASCII country codes
the service works with). -/
def jsToUpper (s : Str) : Str := s.map Char.toUpper

/-- JS `s.toLowerCase()` (per character). -/
def jsToLower (s : Str) : Str := s.map Char.toLower

/-- JS `a.localeCompare(b)`, modelled as code-unit lexicographic
comparison returning a negative, zero or positive number. -/
def strCompare : Str → Str → ℚ
  | [], [] => 0
  | [], _ :: _ => -1
  | _ :: _, [] => 1
  | x :: xs, y :: ys => if x < y then -1 else if y < x then 1 else strCompare xs ys

/-- Test that `needle` occurs at the very start of `hay`. -/
def startsWith : Str → Str → Bool
  | _, [] => true
  | [], _ :: _ => false
  | x :: xs, y :: ys => x == y && startsWith xs ys

/-- JS `hay.includes(needle)`: substring occurrence test. -/
def containsSub : Str → Str → Bool
  | [], needle => needle.isEmpty
  | x :: xs, needle => startsWith (x :: xs) needle || containsSub xs needle

/-- JS `parts.join(', ')`. -/
def joinComma : List Str → Str
  | [] => []
  | [p] => p
  | p :: q :: rest => p ++ (',' :: ' ' :: joinComma (q :: rest))

/-- The case-insensitive first-occurrence filter
`parts.filter((part, index, array) => array.findIndex(p =>
p.toLowerCase() === part.toLowerCase()) === index)` of
`constructFullAddress`, with the lower-cased values seen so far as
accumulator. -/
def dedupCIAux (seen : List Str) : List Str → List Str
  | [] => []
  | p :: rest =>
    let lp := jsToLower p
    if lp ∈ seen then dedupCIAux seen rest
    else p :: dedupCIAux (lp :: seen) rest

/-- Levenshtein edit distance (insert/delete/substitute, unit cost), as
computed by the `fast-levenshtein` dependency, written with a
structural fuel argument so that it reduces in the kernel.  The fuel is
irrelevant as soon as it is at least `xs.length + ys.length`
(`levFuel_congr`). -/
def levFuel : ℕ → Str → Str → ℕ
  | _, [], ys => ys.length
  | _, x :: xs, [] => (x :: xs).length
  | 0, _ :: _, _ :: _ => 0
  | f + 1, x :: xs, y :: ys =>
    if x = y then levFuel f xs ys
    else 1 + min (min (levFuel f xs (y :: ys)) (levFuel f (x :: xs) ys)) (levFuel f xs ys)

/-- Levenshtein distance: `levenshtein.get(query, target)`. -/
def lev (xs ys : Str) : ℕ := levFuel (xs.length + ys.length) xs ys

/-- The common-prefix counter of `calculateSimilarity`: counts
case-insensitive matching leading characters, stopping at the first
mismatch (`query[i].toLowerCase() === target[i].toLowerCase()`). -/
def commonPrefixLen : Str → Str → ℕ
  | [], _ => 0
  | _ :: _, [] => 0
  | x :: xs, y :: ys =>
    if x.toLower = y.toLower then commonPrefixLen xs ys + 1 else 0

theorem levFuel_nil_left (f : ℕ) (ys : Str) : levFuel f [] ys = ys.length := by
  cases f <;> rfl

theorem levFuel_nil_right (f : ℕ) (x : Char) (xs : Str) :
    levFuel f (x :: xs) [] = xs.length + 1 := by
  cases f <;> rfl

theorem levFuel_succ_cons (f : ℕ) (x : Char) (xs : Str) (y : Char) (ys : Str) :
    levFuel (f + 1) (x :: xs) (y :: ys) =
      if x = y then levFuel f xs ys
      else 1 + min (min (levFuel f xs (y :: ys)) (levFuel f (x :: xs) ys))
        (levFuel f xs ys) := rfl

theorem levFuel_congr :
    ∀ (f g : ℕ) (xs ys : Str), xs.length + ys.length ≤ f →
      xs.length + ys.length ≤ g → levFuel f xs ys = levFuel g xs ys := by
  intro f
  induction f with
  | zero =>
    intro g xs ys hf _
    match xs, ys with
    | [], ys => rw [levFuel_nil_left, levFuel_nil_left]
    | x :: xs, [] => rw [levFuel_nil_right, levFuel_nil_right]
    | x :: xs, y :: ys => simp at hf
  | succ f ih =>
    intro g xs ys hf hg
    match xs, ys with
    | [], ys => rw [levFuel_nil_left, levFuel_nil_left]
    | x :: xs, [] => rw [levFuel_nil_right, levFuel_nil_right]
    | x :: xs, y :: ys =>
      match g with
      | 0 => simp at hg
      | g + 1 =>
        simp only [List.length_cons] at hf hg
        rw [levFuel_succ_cons, levFuel_succ_cons,
          ih g xs ys (by omega) (by omega),
          ih g xs (y :: ys) (by simp; omega) (by simp; omega),
          ih g (x :: xs) ys (by simp; omega) (by simp; omega)]

theorem lev_nil_left (ys : Str) : lev [] ys = ys.length := by
  unfold lev; rw [levFuel_nil_left]

theorem lev_nil_right (xs : Str) : lev xs [] = xs.length := by
  unfold lev
  cases xs with
  | nil => rw [levFuel_nil_left]
  | cons x xs => rw [levFuel_nil_right]; simp

theorem lev_cons_cons (x : Char) (xs : Str) (y : Char) (ys : Str) :
    lev (x :: xs) (y :: ys) =
      if x = y then lev xs ys
      else 1 + min (min (lev xs (y :: ys)) (lev (x :: xs) ys)) (lev xs ys) := by
  have h1 : lev (x :: xs) (y :: ys) =
      levFuel ((xs.length + 1 + ys.length) + 1) (x :: xs) (y :: ys) := by
    unfold lev
    exact levFuel_congr _ _ _ _ (by simp only [List.length_cons]; omega)
      (by simp only [List.length_cons]; omega)
  rw [h1, levFuel_succ_cons]
  unfold lev
  rw [levFuel_congr (xs.length + 1 + ys.length) (xs.length + ys.length) xs ys
      (by omega) (by omega),
    levFuel_congr (xs.length + 1 + ys.length) (xs.length + (y :: ys).length) xs (y :: ys)
      (by simp only [List.length_cons]; omega) (by simp only [List.length_cons]; omega),
    levFuel_congr (xs.length + 1 + ys.length) ((x :: xs).length + ys.length) (x :: xs) ys
      (by simp only [List.length_cons]; omega) (by simp only [List.length_cons]; omega)]

theorem lev_le_max : ∀ (xs ys : Str), lev xs ys ≤ max xs.length ys.length := by
  have key : ∀ (f : ℕ) (xs ys : Str), xs.length + ys.length ≤ f →
      levFuel f xs ys ≤ max xs.length ys.length := by
    intro f
    induction f with
    | zero =>
      intro xs ys hf
      match xs, ys with
      | [], ys => rw [levFuel_nil_left]; simp
      | x :: xs, [] => rw [levFuel_nil_right]; simp
      | x :: xs, y :: ys => simp at hf
    | succ f ih =>
      intro xs ys hf
      match xs, ys with
      | [], ys => rw [levFuel_nil_left]; simp
      | x :: xs, [] => rw [levFuel_nil_right]; simp
      | x :: xs, y :: ys =>
        simp only [List.length_cons] at hf
        rw [levFuel_succ_cons]
        by_cases hxy : x = y
        · rw [if_pos hxy]
          have := ih xs ys (by omega)
          simp only [List.length_cons]
          omega
        · rw [if_neg hxy]
          have h3 : levFuel f xs ys ≤ max xs.length ys.length := ih xs ys (by omega)
          have hmin : min (min (levFuel f xs (y :: ys)) (levFuel f (x :: xs) ys))
              (levFuel f xs ys) ≤ levFuel f xs ys := min_le_right _ _
          simp only [List.length_cons]
          omega
  intro xs ys
  exact key _ xs ys le_rfl

theorem lev_symm : ∀ (xs ys : Str), lev xs ys = lev ys xs := by
  have key : ∀ (f : ℕ) (xs ys : Str), xs.length + ys.length ≤ f →
      levFuel f xs ys = levFuel f ys xs := by
    intro f
    induction f with
    | zero =>
      intro xs ys hf
      match xs, ys with
      | [], [] => rfl
      | [], y :: ys => rw [levFuel_nil_left, levFuel_nil_right]; rfl
      | x :: xs, [] => rw [levFuel_nil_left, levFuel_nil_right]; rfl
      | x :: xs, y :: ys => simp at hf
    | succ f ih =>
      intro xs ys hf
      match xs, ys with
      | [], [] => rfl
      | [], y :: ys => rw [levFuel_nil_left, levFuel_nil_right]; rfl
      | x :: xs, [] => rw [levFuel_nil_left, levFuel_nil_right]; rfl
      | x :: xs, y :: ys =>
        simp only [List.length_cons] at hf
        rw [levFuel_succ_cons, levFuel_succ_cons]
        by_cases hxy : x = y
        · rw [if_pos hxy, if_pos hxy.symm, ih xs ys (by omega)]
        · rw [if_neg hxy, if_neg (fun h => hxy h.symm),
            ih xs (y :: ys) (by simp; omega), ih (x :: xs) ys (by simp; omega),
            ih xs ys (by omega)]
          rw [min_comm (levFuel f (y :: ys) xs) (levFuel f ys (x :: xs))]
  intro xs ys
  unfold lev
  rw [key _ xs ys le_rfl, Nat.add_comm]

theorem commonPrefixLen_symm : ∀ (xs ys : Str),
    commonPrefixLen xs ys = commonPrefixLen ys xs := by
  intro xs
  induction xs with
  | nil => intro ys; cases ys <;> rfl
  | cons x xs ih =>
    intro ys
    cases ys with
    | nil => rfl
    | cons y ys =>
      show (if x.toLower = y.toLower then commonPrefixLen xs ys + 1 else 0) =
        (if y.toLower = x.toLower then commonPrefixLen ys xs + 1 else 0)
      by_cases h : x.toLower = y.toLower
      · rw [if_pos h, if_pos h.symm, ih ys]
      · rw [if_neg h, if_neg (fun h2 => h h2.symm)]

/-- The scorer `calculateSimilarity(query, target)` of `search-service.js`
(lines 196-227): base edit-distance similarity plus a length-ratio
bonus (`* 0.1`) and a case-insensitive common-prefix bonus (`* 0.2`),
capped at `1.0`.  The dead `catch` arm (returning 0) is dropped: no
sub-expression can throw in the model. -/
def calculateSimilarity (query target : Str) : ℚ :=
  if query = target then 1 else
  let maxLength := max query.length target.length
  if maxLength = 0 then 1 else
  let distance := lev query target
  let similarity : ℚ := 1 - (distance : ℚ) / (maxLength : ℚ)
  let lengthRatio : ℚ := ((min query.length target.length : ℕ) : ℚ) / (maxLength : ℚ)
  let lengthBonus : ℚ := lengthRatio * (1 / 10)
  let prefixLength := commonPrefixLen query target
  let prefixBonus : ℚ := ((prefixLength : ℚ) / (maxLength : ℚ)) * (1 / 5)
  min 1 (similarity + lengthBonus + prefixBonus)

theorem calculateSimilarity_self (s : Str) : calculateSimilarity s s = 1 := by
  unfold calculateSimilarity
  rw [if_pos rfl]

theorem calculateSimilarity_of_ne (q t : Str) (h : q ≠ t)
    (hM : max q.length t.length ≠ 0) :
    calculateSimilarity q t =
      min 1 ((1 - (lev q t : ℚ) / ((max q.length t.length : ℕ) : ℚ)) +
        ((min q.length t.length : ℕ) : ℚ) / ((max q.length t.length : ℕ) : ℚ) * (1 / 10) +
        ((commonPrefixLen q t : ℚ) / ((max q.length t.length : ℕ) : ℚ)) * (1 / 5)) := by
  unfold calculateSimilarity
  rw [if_neg h, if_neg hM]

theorem calculateSimilarity_nonneg (q t : Str) : 0 ≤ calculateSimilarity q t := by
  by_cases h : q = t
  · rw [h, calculateSimilarity_self]; norm_num
  · by_cases hM : max q.length t.length = 0
    · unfold calculateSimilarity
      rw [if_neg h, if_pos hM]; norm_num
    · rw [calculateSimilarity_of_ne q t h hM]
      have hM0 : (0 : ℚ) < ((max q.length t.length : ℕ) : ℚ) := by
        exact_mod_cast Nat.pos_of_ne_zero hM
      have h1 : ((lev q t : ℕ) : ℚ) / ((max q.length t.length : ℕ) : ℚ) ≤ 1 := by
        rw [div_le_one hM0]
        exact_mod_cast lev_le_max q t
      have h2 : (0 : ℚ) ≤
          ((min q.length t.length : ℕ) : ℚ) / ((max q.length t.length : ℕ) : ℚ) * (1 / 10) := by
        positivity
      have h3 : (0 : ℚ) ≤
          ((commonPrefixLen q t : ℚ) / ((max q.length t.length : ℕ) : ℚ)) * (1 / 5) := by
        positivity
      refine le_min (by norm_num) ?_
      linarith

theorem calculateSimilarity_le_one (q t : Str) : calculateSimilarity q t ≤ 1 := by
  by_cases h : q = t
  · rw [h, calculateSimilarity_self]
  · by_cases hM : max q.length t.length = 0
    · unfold calculateSimilarity
      rw [if_neg h, if_pos hM]
    · rw [calculateSimilarity_of_ne q t h hM]
      exact min_le_left _ _

theorem calculateSimilarity_symm (a b : Str) :
    calculateSimilarity a b = calculateSimilarity b a := by
  by_cases h : a = b
  · rw [h]
  · have h2 : ¬ b = a := fun e => h e.symm
    by_cases hM : max a.length b.length = 0
    · have hM2 : max b.length a.length = 0 := by rwa [Nat.max_comm]
      unfold calculateSimilarity
      rw [if_neg h, if_neg h2, if_pos hM, if_pos hM2]
    · have hM2 : max b.length a.length ≠ 0 := by rwa [Nat.max_comm]
      rw [calculateSimilarity_of_ne a b h hM, calculateSimilarity_of_ne b a h2 hM2,
        lev_symm b a, commonPrefixLen_symm b a, Nat.max_comm b.length,
        Nat.min_comm b.length]

/-- A row of the reference store, as returned by the prepared
statements of `schema.js` (`SELECT pc.*, c.code as country_code`).
Nullable text columns use `[]` for `NULL`; the nullable `accuracy`
TINYINT is `Option ℤ`.  The derived `postal_length`/`search_length`
columns of `findFuzzy` are never read by the service and are omitted.
A store row has no `similarity_score` property. -/
structure Row where
  country_code : Str
  postal_code : Str
  place_name : Str
  admin_name1 : Str
  admin_code1 : Str
  admin_name2 : Str
  admin_code2 : Str
  admin_name3 : Str
  admin_code3 : Str
  latitude : Option ℚ
  longitude : Option ℚ
  accuracy : Option ℤ
deriving DecidableEq

/-- A row after `findFuzzyMatches` has assigned
`result.similarity_score = similarity`. -/
structure ScoredRow where
  row : Row
  similarity_score : ℚ
deriving DecidableEq

/-- The injected store collaborator (`database.getStatements()`): three
oracle query functions, each taking the country code and the
postal-code/pattern argument.  The service treats their outputs as
opaque row lists. -/
structure Statements where
  findExact : Str → Str → List Row
  findFuzzy : Str → Str → List Row
  findByPlace : Str → Str → List Row

/-- The cap `this.maxResults = 20`. -/
def maxResults : ℕ := 20

/-- The constant `this.maxFuzzyDistance = 3` (set in the constructor, never read). -/
def maxFuzzyDistance : ℕ := 3

/-- The comparator passed to `.sort` in `findFuzzyMatches`
(lines 131-142): similarity score descending when the scores differ by
more than `0.01`; otherwise accuracy descending when the raw `accuracy`
values differ (`a.accuracy !== b.accuracy`, with `null` treated as `0`
in the subtraction); otherwise `localeCompare` on the postal codes.
Returns a JS number (negative: `a` first). -/
def compareRows (a b : ScoredRow) : ℚ :=
  if 1 / 100 < |a.similarity_score - b.similarity_score| then
    b.similarity_score - a.similarity_score
  else if a.row.accuracy ≠ b.row.accuracy then
    ((b.row.accuracy.getD 0 : ℤ) : ℚ) - ((a.row.accuracy.getD 0 : ℤ) : ℚ)
  else strCompare a.row.postal_code b.row.postal_code

/-- Stable insertion of `x` into `l`: `x` goes before the first element
it compares strictly less than, hence after every earlier element it
ties with (ECMA-262 stable sort). -/
def insertCmp {α : Type} (cmp : α → α → ℚ) (x : α) : List α → List α
  | [] => [x]
  | y :: l => if cmp x y < 0 then x :: y :: l else y :: insertCmp cmp x l

/-- JS `Array.prototype.sort(cmp)`, modelled as a stable insertion sort. -/
def sortCmp {α : Type} (cmp : α → α → ℚ) (l : List α) : List α :=
  l.foldl (fun acc x => insertCmp cmp x acc) []

/-- The deduplication key
```${result.country_code}:${result.postal_code}:${result.place_name}```
of `findFuzzyMatches`. -/
def rowKey (r : Row) : Str :=
  r.country_code ++ [':'] ++ r.postal_code ++ [':'] ++ r.place_name

/-- The per-row loop body of `findFuzzyMatches` (lines 112-126), folded
over the concatenated strategy outputs: skip rows whose key was already
seen (the key is recorded even when the row is then discarded), score
the survivors against the query postal code, and keep those with
similarity at least `0.5`. -/
def dedupScoreFilter (postalCode : Str) : List Row → List Str → List ScoredRow
  | [], _ => []
  | r :: rest, seen =>
    let key := rowKey r
    if key ∈ seen then dedupScoreFilter postalCode rest seen
    else
      let similarity := calculateSimilarity postalCode r.postal_code
      if 1 / 2 ≤ similarity then
        ⟨r, similarity⟩ :: dedupScoreFilter postalCode rest (key :: seen)
      else dedupScoreFilter postalCode rest (key :: seen)

/-- Strategy `fuzzyPostalCodeSearch`: delegates to the store's `findFuzzy`. -/
def fuzzyPostalCodeSearch (st : Statements) (country postalCode : Str) : List Row :=
  st.findFuzzy country postalCode

/-- Strategy `placeNameSearch`: delegates to the store's `findByPlace`. -/
def placeNameSearch (st : Statements) (country postalCode : Str) : List Row :=
  st.findByPlace country postalCode

/-- The floor length of `partialPostalCodeSearch`:
`Math.max(2, Math.floor(postalCode.length * 0.6))`.  For every natural
`n`, the double computation `Math.floor(n * 0.6)` equals `⌊3n/5⌋`
(the rounding error of binary `0.6` is far below the distance to the
nearest integer boundary), so the floor is embedded exactly. -/
def minLength (postalCode : Str) : ℕ :=
  max 2 ((3 * postalCode.length) / 5)

/-- The descending list of lengths `hi, hi-1, ..., lo` tried by the
`for (let len = postalCode.length - 1; len >= minLength; len--)` loop
(empty when `hi < lo`). -/
def countdown (hi lo : ℕ) : List ℕ :=
  (List.range' lo (hi + 1 - lo)).reverse

/-- The loop body of `partialPostalCodeSearch` (lines 166-176): query
the store with each successive right-truncated query, accumulate, and
return early once the accumulated results reach `maxResults`. -/
def partialLoop (st : Statements) (country postalCode : Str) :
    List ℕ → List Row → List Row
  | [], results => results
  | len :: rest, results =>
    let prefixResults := st.findFuzzy country (postalCode.take len)
    let results2 := results ++ prefixResults
    if maxResults ≤ results2.length then results2
    else partialLoop st country postalCode rest results2

/-- Strategy `partialPostalCodeSearch` (lines 160-183): progressively shorter
query truncations, from `length - 1` characters down to
`max(2, floor(0.6 * length))`. -/
def partialPostalCodeSearch (st : Statements) (country postalCode : Str) : List Row :=
  partialLoop st country postalCode
    (countdown (postalCode.length - 1) (minLength postalCode)) []

/-- The aggregator `findFuzzyMatches` (lines 97-149): run the three strategies in
order, deduplicate and score the concatenated rows, filter by the `0.5`
threshold, sort with `compareRows`, and truncate to `maxResults`. -/
def findFuzzyMatches (st : Statements) (country postalCode : Str) : List ScoredRow :=
  let allRows := fuzzyPostalCodeSearch st country postalCode ++
    partialPostalCodeSearch st country postalCode ++
    placeNameSearch st country postalCode
  let allResults := dedupScoreFilter postalCode allRows []
  (sortCmp compareRows allResults).take maxResults

/-- The formatter `constructFullAddress` (lines 249-350): country-specific
human-readable address composition.  The `catch` arm is dead in the
model.  In the European branch, `parts.pop()` acts on the array that so
far holds at most the place name, modelled by `dropLast`. -/
def constructFullAddress (r : Row) : Str :=
  let parts0 : List Str := if r.place_name ≠ [] then [r.place_name] else []
  let parts : List Str :=
    if r.country_code = strL "US" then
      -- US Format: "City, County, State Abbreviation PostalCode"
      (parts0 ++
        (if r.admin_name2 ≠ [] ∧ (r.place_name = [] ∨
            containsSub (jsToLower r.admin_name2) (jsToLower r.place_name) = false)
          then [r.admin_name2] else [])) ++
      (if r.admin_code1 ≠ [] then [r.admin_code1 ++ [' '] ++ r.postal_code]
        else if r.admin_name1 ≠ [] then [r.admin_name1 ++ [' '] ++ r.postal_code]
        else [])
    else if r.country_code = strL "CA" then
      -- Canada Format: "City, Province Abbreviation PostalCode"
      parts0 ++
      (if r.admin_code1 ≠ [] then [r.admin_code1 ++ [' '] ++ r.postal_code]
        else if r.admin_name1 ≠ [] then [r.admin_name1 ++ [' '] ++ r.postal_code]
        else [])
    else if r.country_code = strL "GB" ∨ r.country_code = strL "UK" then
      -- UK Format: "City, County, Country PostalCode"
      ((parts0 ++
        (if r.admin_name2 ≠ [] ∧ r.admin_name2 ≠ r.place_name then [r.admin_name2] else [])) ++
        (if r.admin_name1 ≠ [] ∧ r.admin_name1 ≠ r.place_name then [r.admin_name1] else [])) ++
      [r.postal_code]
    else if r.country_code = strL "DE" ∨ r.country_code = strL "FR" ∨
        r.country_code = strL "IT" ∨ r.country_code = strL "ES" then
      -- European Format: "PostalCode City, Region"
      (if r.place_name ≠ []
        then parts0.dropLast ++ [r.postal_code ++ [' '] ++ r.place_name]
        else parts0) ++
      (if r.admin_name1 ≠ [] ∧ r.admin_name1 ≠ r.place_name then [r.admin_name1] else [])
    else if r.country_code = strL "AU" then
      -- Australia Format: "City State PostalCode"
      parts0 ++
      (if r.admin_code1 ≠ [] then [r.admin_code1 ++ [' '] ++ r.postal_code]
        else if r.admin_name1 ≠ [] then [r.admin_name1 ++ [' '] ++ r.postal_code]
        else [])
    else
      -- Default international format: "City, Region, Country PostalCode"
      ((parts0 ++
        (if r.admin_name2 ≠ [] ∧ r.admin_name2 ≠ r.place_name then [r.admin_name2] else [])) ++
        (if r.admin_name1 ≠ [] ∧ r.admin_name1 ≠ r.place_name then [r.admin_name1] else [])) ++
      (if r.postal_code ≠ [] then [r.postal_code] else [])
  let cleanParts :=
    dedupCIAux [] ((parts.filter fun q => !q.isEmpty && !(jsTrim q).isEmpty).map jsTrim)
  if 0 < cleanParts.length then joinComma cleanParts
  else if r.postal_code ≠ [] then r.postal_code
  else strL "Address not available"

/-- An output record of `formatResults` (lines 229-247). -/
structure FormattedRow where
  country_code : Str
  postal_code : Str
  place_name : Str
  admin_name1 : Str
  admin_code1 : Str
  admin_name2 : Str
  admin_code2 : Str
  admin_name3 : Str
  admin_code3 : Str
  latitude : Option ℚ
  longitude : Option ℚ
  accuracy : Option ℤ
  similarity_score : ℚ
  fullAddress : Str
deriving DecidableEq

/-- One record of `formatResults`.  The second argument is the
`similarity_score` property of the incoming row: `none` when absent
(exact-match rows are never scored).  `result.similarity_score || 1.0`
yields `1.0` for an absent score and also for a (falsy) score of `0`. -/
def formatResult (r : Row) (score : Option ℚ) : FormattedRow :=
  { country_code := r.country_code
    postal_code := r.postal_code
    place_name := r.place_name
    admin_name1 := r.admin_name1
    admin_code1 := r.admin_code1
    admin_name2 := r.admin_name2
    admin_code2 := r.admin_code2
    admin_name3 := r.admin_name3
    admin_code3 := r.admin_code3
    latitude := r.latitude
    longitude := r.longitude
    accuracy := r.accuracy
    similarity_score := match score with
      | some s => if s = 0 then 1 else s
      | none => 1
    fullAddress := constructFullAddress r }

/-- The mapper `formatResults`: map `formatResult` over rows paired with their
optional `similarity_score` property. -/
def formatResults (rs : List (Row × Option ℚ)) : List FormattedRow :=
  rs.map fun p => formatResult p.1 p.2

/-- The response object of `searchPostalCode`.  The wall-clock
`searchTime` field is not modelled; absent JS properties (`error`,
`matchType`, `query` on the branches that do not set them) are `none`. -/
structure SearchResult where
  success : Bool
  error : Option Str
  matchType : Option Str
  query : Option (Str × Str)
  results : List FormattedRow
deriving DecidableEq

/-- Strategy `findExactMatches`: delegates to the store's `findExact`. -/
def findExactMatches (st : Statements) (country postalCode : Str) : List Row :=
  st.findExact country postalCode

/-- The orchestrator `searchPostalCode(country, postalCode, fuzzy)` (lines 12-86):
validate (`!country || !postalCode`, i.e. emptiness of the *raw*
inputs), normalize (trim, upper-case the country), try the exact
match, then — when `fuzzy` is set — the fuzzy pipeline, and otherwise
report `matchType: 'none'`. -/
def searchPostalCode (st : Statements) (country postalCode : Str) (fuzzy : Bool) :
    SearchResult :=
  if country = [] ∨ postalCode = [] then
    { success := false
      error := some (strL "Country and postal code are required")
      matchType := none
      query := none
      results := [] }
  else
    let normalizedCountry := jsToUpper (jsTrim country)
    let normalizedPostalCode := jsTrim postalCode
    let exactResults := findExactMatches st normalizedCountry normalizedPostalCode
    if 0 < exactResults.length then
      { success := true
        error := none
        matchType := some (strL "exact")
        query := some (normalizedCountry, normalizedPostalCode)
        results := formatResults (exactResults.map fun r => (r, none)) }
    else if fuzzy then
      let fuzzyResults := findFuzzyMatches st normalizedCountry normalizedPostalCode
      if 0 < fuzzyResults.length then
        { success := true
          error := none
          matchType := some (strL "fuzzy")
          query := some (normalizedCountry, normalizedPostalCode)
          results := formatResults (fuzzyResults.map fun s => (s.row, some s.similarity_score)) }
      else
        { success := true
          error := none
          matchType := some (strL "none")
          query := some (normalizedCountry, normalizedPostalCode)
          results := [] }
    else
      { success := true
        error := none
        matchType := some (strL "none")
        query := some (normalizedCountry, normalizedPostalCode)
        results := [] }

theorem insertCmp_perm {α : Type} (cmp : α → α → ℚ) (x : α) :
    ∀ l : List α, (insertCmp cmp x l).Perm (x :: l) := by
  intro l
  induction l with
  | nil => exact List.Perm.refl _
  | cons y l ih =>
    show (if cmp x y < 0 then x :: y :: l else y :: insertCmp cmp x l).Perm _
    by_cases hxy : cmp x y < 0
    · rw [if_pos hxy]
    · rw [if_neg hxy]
      exact (ih.cons y).trans (List.Perm.swap x y l)

theorem sortCmp_perm {α : Type} (cmp : α → α → ℚ) (l : List α) :
    (sortCmp cmp l).Perm l := by
  have aux : ∀ (l acc : List α),
      (l.foldl (fun acc x => insertCmp cmp x acc) acc).Perm (acc ++ l) := by
    intro l
    induction l with
    | nil => intro acc; simp
    | cons x l ih =>
      intro acc
      have h1 : (l.foldl (fun acc x => insertCmp cmp x acc)
          (insertCmp cmp x acc)).Perm (insertCmp cmp x acc ++ l) := ih _
      have h2 : (insertCmp cmp x acc ++ l).Perm ((x :: acc) ++ l) :=
        (insertCmp_perm cmp x acc).append_right l
      have h3 : (x :: (acc ++ l)).Perm (acc ++ x :: l) := List.perm_middle.symm
      exact (h1.trans h2).trans h3
  have h0 : ([] : List α) ++ l = l := rfl
  exact h0 ▸ aux l []

theorem dedupScoreFilter_score (p : Str) :
    ∀ (rows : List Row) (seen : List Str) (s : ScoredRow),
      s ∈ dedupScoreFilter p rows seen →
        1 / 2 ≤ s.similarity_score ∧
        s.similarity_score = calculateSimilarity p s.row.postal_code := by
  intro rows
  induction rows with
  | nil => intro seen s hs; simp [dedupScoreFilter] at hs
  | cons r rest ih =>
    intro seen s hs
    simp only [dedupScoreFilter] at hs
    by_cases hseen : rowKey r ∈ seen
    · rw [if_pos hseen] at hs
      exact ih seen s hs
    · rw [if_neg hseen] at hs
      by_cases hsim : 1 / 2 ≤ calculateSimilarity p r.postal_code
      · rw [if_pos hsim] at hs
        rcases List.mem_cons.mp hs with h1 | h1
        · subst h1
          exact ⟨hsim, rfl⟩
        · exact ih _ s h1
      · rw [if_neg hsim] at hs
        exact ih _ s hs

theorem insertCmp_chain {α : Type} (cmp : α → α → ℚ)
    (hA : ∀ a b, 0 ≤ cmp a b → cmp b a ≤ 0) (x : α) :
    ∀ l : List α, List.Chain' (fun a b => cmp a b ≤ 0) l →
      List.Chain' (fun a b => cmp a b ≤ 0) (insertCmp cmp x l) := by
  intro l
  induction l with
  | nil => intro _; exact List.chain'_singleton x
  | cons y l ih =>
    intro h
    show List.Chain' _ (if cmp x y < 0 then x :: y :: l else y :: insertCmp cmp x l)
    by_cases hxy : cmp x y < 0
    · rw [if_pos hxy]
      exact List.chain'_cons.mpr ⟨le_of_lt hxy, h⟩
    · rw [if_neg hxy]
      have hyx : cmp y x ≤ 0 := hA x y (le_of_not_lt hxy)
      refine List.chain'_cons'.mpr ⟨?_, ih h.tail⟩
      intro z hz
      cases l with
      | nil =>
        simp only [insertCmp, List.head?_cons, Option.mem_def, Option.some.injEq] at hz
        rw [← hz]
        exact hyx
      | cons w l2 =>
        by_cases hxw : cmp x w < 0
        · simp only [insertCmp, if_pos hxw, List.head?_cons, Option.mem_def,
            Option.some.injEq] at hz
          rw [← hz]
          exact hyx
        · simp only [insertCmp, if_neg hxw, List.head?_cons, Option.mem_def,
            Option.some.injEq] at hz
          rw [← hz]
          exact (List.chain'_cons.mp h).1

theorem sortCmp_chain {α : Type} (cmp : α → α → ℚ)
    (hA : ∀ a b, 0 ≤ cmp a b → cmp b a ≤ 0) (l : List α) :
    List.Chain' (fun a b => cmp a b ≤ 0) (sortCmp cmp l) := by
  have aux : ∀ (l acc : List α), List.Chain' (fun a b => cmp a b ≤ 0) acc →
      List.Chain' (fun a b => cmp a b ≤ 0)
        (l.foldl (fun acc x => insertCmp cmp x acc) acc) := by
    intro l
    induction l with
    | nil => intro acc h; exact h
    | cons x l ih =>
      intro acc h
      exact ih _ (insertCmp_chain cmp hA x acc h)
  exact aux l [] List.chain'_nil

theorem strCompare_antisymm : ∀ x y : Str, 0 ≤ strCompare x y → strCompare y x ≤ 0 := by
  intro x
  induction x with
  | nil =>
    intro y h
    cases y with
    | nil => exact le_of_eq rfl
    | cons b ys => exact absurd h (by norm_num [strCompare])
  | cons a xs ih =>
    intro y h
    cases y with
    | nil => norm_num [strCompare]
    | cons b ys =>
      by_cases hab : a < b
      · rw [show strCompare (a :: xs) (b :: ys) = -1 from by
          rw [strCompare, if_pos hab]] at h
        exact absurd h (by norm_num)
      · by_cases hba : b < a
        · rw [show strCompare (b :: ys) (a :: xs) = -1 from by
            rw [strCompare, if_pos hba]]
          norm_num
        · rw [show strCompare (a :: xs) (b :: ys) = strCompare xs ys from by
            rw [strCompare, if_neg hab, if_neg hba]] at h
          rw [show strCompare (b :: ys) (a :: xs) = strCompare ys xs from by
            rw [strCompare, if_neg hba, if_neg hab]]
          exact ih ys h

theorem compareRows_antisymm :
    ∀ a b : ScoredRow, 0 ≤ compareRows a b → compareRows b a ≤ 0 := by
  intro a b h
  unfold compareRows at h ⊢
  by_cases h1 : 1 / 100 < |a.similarity_score - b.similarity_score|
  · have h1s : 1 / 100 < |b.similarity_score - a.similarity_score| := by
      rwa [abs_sub_comm]
    rw [if_pos h1] at h
    rw [if_pos h1s]
    linarith
  · have h1s : ¬ 1 / 100 < |b.similarity_score - a.similarity_score| := by
      rwa [abs_sub_comm]
    rw [if_neg h1] at h
    rw [if_neg h1s]
    by_cases h2 : a.row.accuracy = b.row.accuracy
    · rw [if_neg (fun hne => hne h2)] at h
      rw [if_neg (fun hne => hne h2.symm)]
      exact strCompare_antisymm _ _ h
    · rw [if_pos h2] at h
      rw [if_pos (fun he => h2 he.symm)]
      linarith

theorem searchPostalCode_invalid (st : Statements) (c p : Str) (f : Bool)
    (h : c = [] ∨ p = []) :
    searchPostalCode st c p f =
      { success := false
        error := some (strL "Country and postal code are required")
        matchType := none
        query := none
        results := [] } := by
  unfold searchPostalCode
  rw [if_pos h]

theorem searchPostalCode_exact (st : Statements) (c p : Str) (f : Bool)
    (hv : ¬(c = [] ∨ p = []))
    (hex : 0 < (st.findExact (jsToUpper (jsTrim c)) (jsTrim p)).length) :
    searchPostalCode st c p f =
      { success := true
        error := none
        matchType := some (strL "exact")
        query := some (jsToUpper (jsTrim c), jsTrim p)
        results := formatResults
          ((st.findExact (jsToUpper (jsTrim c)) (jsTrim p)).map fun r => (r, none)) } := by
  simp only [searchPostalCode, findExactMatches, if_neg hv, if_pos hex]

theorem searchPostalCode_fuzzy (st : Statements) (c p : Str)
    (hv : ¬(c = [] ∨ p = []))
    (hex : st.findExact (jsToUpper (jsTrim c)) (jsTrim p) = [])
    (hfz : 0 < (findFuzzyMatches st (jsToUpper (jsTrim c)) (jsTrim p)).length) :
    searchPostalCode st c p true =
      { success := true
        error := none
        matchType := some (strL "fuzzy")
        query := some (jsToUpper (jsTrim c), jsTrim p)
        results := formatResults
          ((findFuzzyMatches st (jsToUpper (jsTrim c)) (jsTrim p)).map
            fun s => (s.row, some s.similarity_score)) } := by
  have hex2 : ¬ 0 < (st.findExact (jsToUpper (jsTrim c)) (jsTrim p)).length := by
    rw [hex]; simp
  simp only [searchPostalCode, findExactMatches, if_neg hv, if_neg hex2, if_pos hfz,
    if_true]

theorem searchPostalCode_none (st : Statements) (c p : Str) (f : Bool)
    (hv : ¬(c = [] ∨ p = []))
    (hex : st.findExact (jsToUpper (jsTrim c)) (jsTrim p) = [])
    (hfz : findFuzzyMatches st (jsToUpper (jsTrim c)) (jsTrim p) = []) :
    searchPostalCode st c p f =
      { success := true
        error := none
        matchType := some (strL "none")
        query := some (jsToUpper (jsTrim c), jsTrim p)
        results := [] } := by
  have hex2 : ¬ 0 < (st.findExact (jsToUpper (jsTrim c)) (jsTrim p)).length := by
    rw [hex]; simp
  have hfz2 : ¬ 0 < (findFuzzyMatches st (jsToUpper (jsTrim c)) (jsTrim p)).length := by
    rw [hfz]; simp
  cases f with
  | false => simp only [searchPostalCode, findExactMatches, if_neg hv, if_neg hex2,
      Bool.false_eq_true, if_false]
  | true => simp only [searchPostalCode, findExactMatches, if_neg hv, if_neg hex2,
      if_neg hfz2, if_true]

theorem mem_countdown (hi lo m : ℕ) : m ∈ countdown hi lo ↔ lo ≤ m ∧ m ≤ hi := by
  unfold countdown
  rw [List.mem_reverse, List.mem_range'_1]
  exact ⟨fun h => by omega, fun h => by omega⟩

theorem countdown_cons (hi lo : ℕ) (hlo : 0 < lo) (h : lo ≤ hi) :
    countdown hi lo = hi :: countdown (hi - 1) lo := by
  unfold countdown
  have h1 : hi + 1 - lo = (hi - lo) + 1 := by omega
  have h2 : hi - 1 + 1 - lo = hi - lo := by omega
  have h3 : lo + (hi - lo) = hi := by omega
  rw [h1, h2, List.range'_1_concat, List.reverse_append, h3]
  rfl

theorem partialLoop_congr (st1 st2 : Statements) (c p : Str) :
    ∀ (lens : List ℕ) (acc : List Row),
      (∀ l ∈ lens, st1.findFuzzy c (p.take l) = st2.findFuzzy c (p.take l)) →
      partialLoop st1 c p lens acc = partialLoop st2 c p lens acc := by
  intro lens
  induction lens with
  | nil => intro acc _; rfl
  | cons len rest ih =>
    intro acc hag
    simp only [partialLoop]
    rw [hag len (List.mem_cons_self _ _)]
    by_cases hstop : maxResults ≤ (acc ++ st2.findFuzzy c (p.take len)).length
    · rw [if_pos hstop, if_pos hstop]
    · rw [if_neg hstop, if_neg hstop]
      exact ih _ fun l hl => hag l (List.mem_cons_of_mem _ hl)

theorem partialPostalCodeSearch_congr (st1 st2 : Statements) (c p : Str)
    (hag : ∀ l, minLength p ≤ l → l ≤ p.length - 1 →
      st1.findFuzzy c (p.take l) = st2.findFuzzy c (p.take l)) :
    partialPostalCodeSearch st1 c p = partialPostalCodeSearch st2 c p := by
  unfold partialPostalCodeSearch
  exact partialLoop_congr st1 st2 c p _ [] fun l hl =>
    hag l ((mem_countdown _ _ l).mp hl).1 ((mem_countdown _ _ l).mp hl).2

theorem partialPostalCodeSearch_firstStep (st : Statements) (c p : Str)
    (h1 : minLength p ≤ p.length - 1)
    (h2 : maxResults ≤ (st.findFuzzy c (p.take (p.length - 1))).length) :
    partialPostalCodeSearch st c p = st.findFuzzy c (p.take (p.length - 1)) := by
  have hlo : 0 < minLength p :=
    lt_of_lt_of_le (by norm_num) (le_max_left 2 ((3 * p.length) / 5))
  unfold partialPostalCodeSearch
  rw [countdown_cons _ _ hlo h1]
  simp only [partialLoop, List.nil_append]
  rw [if_pos h2]

theorem compareRows_le_score (a b : ScoredRow) (h : compareRows a b ≤ 0) :
    b.similarity_score ≤ a.similarity_score + 1 / 100 := by
  unfold compareRows at h
  by_cases h1 : 1 / 100 < |a.similarity_score - b.similarity_score|
  · rw [if_pos h1] at h
    linarith
  · have h2 := (abs_le.mp (le_of_not_lt h1)).1
    linarith

theorem compareRows_le_tiebreak (a b : ScoredRow) (h : compareRows a b ≤ 0)
    (habs : |a.similarity_score - b.similarity_score| ≤ 1 / 100) :
    b.row.accuracy.getD 0 ≤ a.row.accuracy.getD 0 ∧
      (a.row.accuracy = b.row.accuracy →
        strCompare a.row.postal_code b.row.postal_code ≤ 0) := by
  unfold compareRows at h
  rw [if_neg (not_lt.mpr habs)] at h
  by_cases h2 : a.row.accuracy = b.row.accuracy
  · rw [if_neg (fun hne => hne h2)] at h
    exact ⟨le_of_eq (by rw [h2]), fun _ => h⟩
  · rw [if_pos h2] at h
    refine ⟨?_, fun he => absurd he h2⟩
    have h3 : ((b.row.accuracy.getD 0 : ℤ) : ℚ) ≤ ((a.row.accuracy.getD 0 : ℤ) : ℚ) := by
      linarith
    exact_mod_cast h3

/-- C1: for every pair of strings, `calculateSimilarity` returns a
value in `[0, 1]`: the base edit-distance similarity is nonnegative
(the distance never exceeds the longer length), the bonuses are
nonnegative, and the sum is capped at `1.0` by `Math.min`. -/
theorem C1_score_in_unit_interval (query candidate : Str) :
    0 ≤ calculateSimilarity query candidate ∧ calculateSimilarity query candidate ≤ 1 :=
  ⟨calculateSimilarity_nonneg query candidate, calculateSimilarity_le_one query candidate⟩

/-- C9: for every string `s`, `calculateSimilarity s s = 1.0` exactly
(the identical-strings early return). -/
theorem C9_score_self_eq_one (s : Str) : calculateSimilarity s s = 1 :=
  calculateSimilarity_self s

/-- C7 (counterexample): the claim "there exist strings `a`, `b` with
`score(a, b) ≠ score(b, a)`" is false: every ingredient of
`calculateSimilarity` (Levenshtein distance, `max`/`min` of the
lengths, and the case-insensitive common-prefix count) is symmetric in
the two arguments, so the scorer is symmetric. -/
theorem C7_counterexample : ¬ ∃ a b : Str, calculateSimilarity a b ≠ calculateSimilarity b a := by
  rintro ⟨a, b, h⟩
  exact h (calculateSimilarity_symm a b)

/-- C7 (amended): `calculateSimilarity` is symmetric:
`score(a, b) = score(b, a)` for all strings `a`, `b`.  The prefix bonus
compares `query[i].toLowerCase()` with `target[i].toLowerCase()`, which
is a symmetric test, so no asymmetry arises. -/
theorem C7_score_symmetric (a b : Str) :
    calculateSimilarity a b = calculateSimilarity b a :=
  calculateSimilarity_symm a b

/-- C2: for every store and query, `findFuzzyMatches` returns at most
20 entries, every entry's `similarity_score` is at least `0.5`, and
consecutive entries are in non-increasing score order up to the `0.01`
tie tolerance. -/
theorem C2_fuzzy_aggregation_bounds (st : Statements) (c p : Str) :
    (findFuzzyMatches st c p).length ≤ 20 ∧
    (∀ s ∈ findFuzzyMatches st c p, 1 / 2 ≤ s.similarity_score) ∧
    List.Chain' (fun a b => b.similarity_score ≤ a.similarity_score + 1 / 100)
      (findFuzzyMatches st c p) := by
  refine ⟨?_, ?_, ?_⟩
  · simp only [findFuzzyMatches]
    rw [List.length_take]
    exact min_le_left _ _
  · intro s hs
    simp only [findFuzzyMatches] at hs
    have h1 := (List.take_sublist maxResults _).subset hs
    have h2 := (sortCmp_perm compareRows _).subset h1
    exact (dedupScoreFilter_score p _ _ s h2).1
  · simp only [findFuzzyMatches]
    exact List.Chain'.take
      (List.Chain'.imp compareRows_le_score
        (sortCmp_chain compareRows compareRows_antisymm _)) _

/-- C3 (amended): in the fuzzy-aggregation sort, whenever two adjacent
candidates' similarity scores are within `0.01` of each other, they are
ordered by accuracy descending with `null` treated as `0`; the
postal-code ascending tiebreak applies only to pairs whose *raw*
`accuracy` values are equal.  (A pair whose accuracies coincide after
the `null → 0` mapping but differ as raw values — `null` vs `0` — gets
comparator value `0` and keeps its first-seen order, because
`a.accuracy !== b.accuracy` short-circuits the postal tiebreak.)  The
output is a deterministic function of the inputs. -/
theorem C3_sort_tiebreak (st : Statements) (c p : Str) :
    List.Chain' (fun a b =>
      |a.similarity_score - b.similarity_score| ≤ 1 / 100 →
        b.row.accuracy.getD 0 ≤ a.row.accuracy.getD 0 ∧
        (a.row.accuracy = b.row.accuracy →
          strCompare a.row.postal_code b.row.postal_code ≤ 0))
      (findFuzzyMatches st c p) := by
  simp only [findFuzzyMatches]
  exact List.Chain'.take
    (List.Chain'.imp (fun a b h habs => compareRows_le_tiebreak a b h habs)
      (sortCmp_chain compareRows compareRows_antisymm _)) _

theorem searchPostalCode_noFuzzy (st : Statements) (c p : Str)
    (hv : ¬(c = [] ∨ p = []))
    (hex : st.findExact (jsToUpper (jsTrim c)) (jsTrim p) = []) :
    searchPostalCode st c p false =
      { success := true
        error := none
        matchType := some (strL "none")
        query := some (jsToUpper (jsTrim c), jsTrim p)
        results := [] } := by
  have hex2 : ¬ 0 < (st.findExact (jsToUpper (jsTrim c)) (jsTrim p)).length := by
    rw [hex]; simp
  simp only [searchPostalCode, findExactMatches, if_neg hv, if_neg hex2,
    Bool.false_eq_true, if_false]

/-- The store with no rows at all. -/
def emptyStatements : Statements :=
  { findExact := fun _ _ => []
    findFuzzy := fun _ _ => []
    findByPlace := fun _ _ => [] }

/-- A sample US row used by the concrete witnesses. -/
def rowUS : Row :=
  { country_code := ['U', 'S']
    postal_code := ['9', '0', '2', '1', '0']
    place_name := ['B', 'e', 'v']
    admin_name1 := ['C', 'a', 'l']
    admin_code1 := ['C', 'A']
    admin_name2 := ['L', 'A']
    admin_code2 := []
    admin_name3 := []
    admin_code3 := []
    latitude := none
    longitude := none
    accuracy := some 4 }

/-- A store whose exact-match query always returns `rowUS`. -/
def stExact : Statements :=
  { findExact := fun _ _ => [rowUS]
    findFuzzy := fun _ _ => []
    findByPlace := fun _ _ => [] }

/-- C4: when validation passes and the exact strategy returns at least
one row, `searchPostalCode` returns immediately with
`matchType = 'exact'` and those rows formatted, and no fuzzy strategy
is invoked: the response agrees for any two stores with the same
`findExact`, whatever their fuzzy oracles do. -/
theorem C4_exact_short_circuits (st1 st2 : Statements) (c p : Str) (f : Bool)
    (hst : st1.findExact = st2.findExact)
    (hv : ¬(c = [] ∨ p = []))
    (hex : 0 < (st1.findExact (jsToUpper (jsTrim c)) (jsTrim p)).length) :
    (searchPostalCode st1 c p f).success = true ∧
    (searchPostalCode st1 c p f).matchType = some (strL "exact") ∧
    (searchPostalCode st1 c p f).results =
      formatResults
        ((st1.findExact (jsToUpper (jsTrim c)) (jsTrim p)).map fun r => (r, none)) ∧
    searchPostalCode st1 c p f = searchPostalCode st2 c p f := by
  have h1 := searchPostalCode_exact st1 c p f hv hex
  have hex2 : 0 < (st2.findExact (jsToUpper (jsTrim c)) (jsTrim p)).length := by
    rw [← hst]; exact hex
  have h2 := searchPostalCode_exact st2 c p f hv hex2
  refine ⟨by rw [h1], by rw [h1], by rw [h1], ?_⟩
  rw [h1, h2, hst]

/-- C4 (witness): with a store whose exact query returns `rowUS`, the
lookup for `US 90210` short-circuits on the exact match. -/
theorem C4_witness :
    (searchPostalCode stExact ['U', 'S'] ['9', '0', '2', '1', '0'] true).success = true ∧
    (searchPostalCode stExact ['U', 'S'] ['9', '0', '2', '1', '0'] true).matchType =
      some (strL "exact") ∧
    (searchPostalCode stExact ['U', 'S'] ['9', '0', '2', '1', '0'] true).results =
      formatResults
        ((stExact.findExact (jsToUpper (jsTrim ['U', 'S']))
          (jsTrim ['9', '0', '2', '1', '0'])).map fun r => (r, none)) ∧
    searchPostalCode stExact ['U', 'S'] ['9', '0', '2', '1', '0'] true =
      searchPostalCode stExact ['U', 'S'] ['9', '0', '2', '1', '0'] true :=
  C4_exact_short_circuits stExact stExact ['U', 'S'] ['9', '0', '2', '1', '0'] true rfl
    (by decide) (by decide)

/-- C5: when validation passes but neither an exact row nor any fuzzy
candidate above the threshold exists, the lookup succeeds with
`matchType = 'none'` and an empty result list — not an error. -/
theorem C5_no_match_is_success (st : Statements) (c p : Str) (f : Bool)
    (hc : c ≠ []) (hp : p ≠ [])
    (hex : st.findExact (jsToUpper (jsTrim c)) (jsTrim p) = [])
    (hfz : findFuzzyMatches st (jsToUpper (jsTrim c)) (jsTrim p) = []) :
    (searchPostalCode st c p f).success = true ∧
    (searchPostalCode st c p f).matchType = some (strL "none") ∧
    (searchPostalCode st c p f).results = [] := by
  have h := searchPostalCode_none st c p f (fun h => h.elim hc hp) hex hfz
  exact ⟨by rw [h], by rw [h], by rw [h]⟩

/-- C5 (witness): `US 99999` against the empty store. -/
theorem C5_witness :
    (searchPostalCode emptyStatements ['U', 'S'] ['9', '9', '9', '9', '9'] true).success
      = true ∧
    (searchPostalCode emptyStatements ['U', 'S'] ['9', '9', '9', '9', '9'] true).matchType
      = some (strL "none") ∧
    (searchPostalCode emptyStatements ['U', 'S'] ['9', '9', '9', '9', '9'] true).results
      = [] :=
  C5_no_match_is_success emptyStatements ['U', 'S'] ['9', '9', '9', '9', '9'] true
    (by decide) (by decide) rfl (by decide)

/-- C8 (counterexample): the claim "inputs whose *trimmed* country is
empty are rejected with `success = false` and no store access" is
false: validation tests the raw inputs (`!country || !postalCode`), so
the all-whitespace country `" "` passes validation, the store is
queried with the trimmed (empty) country, and here the lookup even
returns `success = true` with an exact match. -/
theorem C8_counterexample :
    jsTrim [' '] = [] ∧
    (searchPostalCode stExact [' '] ['1'] true).success = true ∧
    (searchPostalCode stExact [' '] ['1'] true).matchType = some (strL "exact") := by
  decide

/-- C8 (amended): for every input in which the *raw* country or the
*raw* postal code is the empty string, the lookup returns
`success = false` with the descriptive error and performs no store
access (the response is the same constant for every store); inputs
that are non-empty but trim to empty pass validation and reach the
store. -/
theorem C8_empty_raw_inputs_rejected (st st2 : Statements) (c p : Str) (f : Bool)
    (h : c = [] ∨ p = []) :
    searchPostalCode st c p f =
      { success := false
        error := some (strL "Country and postal code are required")
        matchType := none
        query := none
        results := [] } ∧
    searchPostalCode st c p f = searchPostalCode st2 c p f :=
  ⟨searchPostalCode_invalid st c p f h,
    (searchPostalCode_invalid st c p f h).trans
      (searchPostalCode_invalid st2 c p f h).symm⟩

/-- C8 (witness): the empty country against two different stores. -/
theorem C8_witness :
    searchPostalCode stExact [] ['1'] true =
      { success := false
        error := some (strL "Country and postal code are required")
        matchType := none
        query := none
        results := [] } ∧
    searchPostalCode stExact [] ['1'] true =
      searchPostalCode emptyStatements [] ['1'] true :=
  C8_empty_raw_inputs_rejected stExact emptyStatements [] ['1'] true (Or.inl rfl)

/-- C10: exact-match rows reach `formatResults` without a
`similarity_score` property, and `result.similarity_score || 1.0`
substitutes `1.0` there, so every record of a `matchType = 'exact'`
response carries `similarity_score = 1.0`. -/
theorem C10_exact_results_score_one :
    (∀ r : Row, (formatResult r none).similarity_score = 1) ∧
    ∀ (st : Statements) (c p : Str) (f : Bool) (fr : FormattedRow),
      (searchPostalCode st c p f).matchType = some (strL "exact") →
      fr ∈ (searchPostalCode st c p f).results → fr.similarity_score = 1 := by
  constructor
  · intro r; rfl
  · intro st c p f fr hmt hfr
    by_cases h1 : c = [] ∨ p = []
    · rw [searchPostalCode_invalid st c p f h1] at hmt
      exact absurd hmt (by simp)
    · by_cases h2 : 0 < (st.findExact (jsToUpper (jsTrim c)) (jsTrim p)).length
      · rw [searchPostalCode_exact st c p f h1 h2] at hfr
        simp only [formatResults] at hfr
        rcases List.mem_map.mp hfr with ⟨q, hq, hfq⟩
        rcases List.mem_map.mp hq with ⟨r, _, hrq⟩
        rw [← hfq, ← hrq]
        rfl
      · have hex : st.findExact (jsToUpper (jsTrim c)) (jsTrim p) = [] :=
          List.length_eq_zero.mp (by omega)
        cases f with
        | false =>
          rw [searchPostalCode_noFuzzy st c p h1 hex] at hmt
          exact absurd hmt (show ¬ some (strL "none") = some (strL "exact") by decide)
        | true =>
          by_cases h3 : 0 < (findFuzzyMatches st (jsToUpper (jsTrim c)) (jsTrim p)).length
          · rw [searchPostalCode_fuzzy st c p h1 hex h3] at hmt
            exact absurd hmt (show ¬ some (strL "fuzzy") = some (strL "exact") by decide)
          · have hfz : findFuzzyMatches st (jsToUpper (jsTrim c)) (jsTrim p) = [] :=
              List.length_eq_zero.mp (by omega)
            rw [searchPostalCode_none st c p true h1 hex hfz] at hmt
            exact absurd hmt (show ¬ some (strL "none") = some (strL "exact") by decide)

/-- C10 (witness): the formatted `rowUS` of the exact response for
`US 90210` carries score `1.0`. -/
theorem C10_witness : (formatResult rowUS none).similarity_score = 1 :=
  C10_exact_results_score_one.2 stExact ['U', 'S'] ['9', '0', '2', '1', '0'] true
    (formatResult rowUS none) rfl (List.Mem.head _)

/-- Similarity of `AB1` against `AB1Y`: `0.975`. -/
theorem simAB1Y : calculateSimilarity ['A', 'B', '1'] ['A', 'B', '1', 'Y'] = 39 / 40 := by
  rw [calculateSimilarity_of_ne _ _ (by decide) (by decide),
    show lev ['A', 'B', '1'] ['A', 'B', '1', 'Y'] = 1 from by decide,
    show max (['A', 'B', '1'] : Str).length (['A', 'B', '1', 'Y'] : Str).length = 4
      from by decide,
    show min (['A', 'B', '1'] : Str).length (['A', 'B', '1', 'Y'] : Str).length = 3
      from by decide,
    show commonPrefixLen ['A', 'B', '1'] ['A', 'B', '1', 'Y'] = 3 from by decide]
  norm_num [min_def]

/-- Similarity of `AB1` against `AB1X`: `0.975`. -/
theorem simAB1X : calculateSimilarity ['A', 'B', '1'] ['A', 'B', '1', 'X'] = 39 / 40 := by
  rw [calculateSimilarity_of_ne _ _ (by decide) (by decide),
    show lev ['A', 'B', '1'] ['A', 'B', '1', 'X'] = 1 from by decide,
    show max (['A', 'B', '1'] : Str).length (['A', 'B', '1', 'X'] : Str).length = 4
      from by decide,
    show min (['A', 'B', '1'] : Str).length (['A', 'B', '1', 'X'] : Str).length = 3
      from by decide,
    show commonPrefixLen ['A', 'B', '1'] ['A', 'B', '1', 'X'] = 3 from by decide]
  norm_num [min_def]

/-- Fuzzy row with postal code `AB1Y` and a `NULL` accuracy. -/
def rowY : Row :=
  ⟨['U', 'S'], ['A', 'B', '1', 'Y'], ['P'], [], [], [], [], [], [], none, none, none⟩

/-- Fuzzy row with postal code `AB1X` and accuracy `0`. -/
def rowX : Row :=
  ⟨['U', 'S'], ['A', 'B', '1', 'X'], ['Q'], [], [], [], [], [], [], none, none, some 0⟩

/-- Store for the C3 counterexample: the fuzzy-pattern query for `AB1`
returns `rowY` before `rowX`. -/
def stC3 : Statements :=
  { findExact := fun _ _ => []
    findFuzzy := fun _ q => if q = ['A', 'B', '1'] then [rowY, rowX] else []
    findByPlace := fun _ _ => [] }

theorem C3eval : findFuzzyMatches stC3 ['U', 'S'] ['A', 'B', '1'] =
    [⟨rowY, 39 / 40⟩, ⟨rowX, 39 / 40⟩] := by
  have hrows : fuzzyPostalCodeSearch stC3 ['U', 'S'] ['A', 'B', '1'] ++
      partialPostalCodeSearch stC3 ['U', 'S'] ['A', 'B', '1'] ++
      placeNameSearch stC3 ['U', 'S'] ['A', 'B', '1'] = [rowY, rowX] := by decide
  have hY : calculateSimilarity ['A', 'B', '1'] rowY.postal_code = 39 / 40 := simAB1Y
  have hX : calculateSimilarity ['A', 'B', '1'] rowX.postal_code = 39 / 40 := simAB1X
  have hd : dedupScoreFilter ['A', 'B', '1'] [rowY, rowX] [] =
      [⟨rowY, 39 / 40⟩, ⟨rowX, 39 / 40⟩] := by
    simp only [dedupScoreFilter]
    rw [if_neg (show ¬ rowKey rowY ∈ ([] : List Str) from by decide), hY,
      if_pos (show (1 : ℚ) / 2 ≤ 39 / 40 from by norm_num),
      if_neg (show ¬ rowKey rowX ∈ [rowKey rowY] from by decide), hX,
      if_pos (show (1 : ℚ) / 2 ≤ 39 / 40 from by norm_num)]
  have hc : compareRows ⟨rowX, 39 / 40⟩ ⟨rowY, 39 / 40⟩ = 0 := by
    unfold compareRows
    rw [if_neg (show ¬ (1 : ℚ) / 100 <
        |(⟨rowX, 39 / 40⟩ : ScoredRow).similarity_score -
          (⟨rowY, 39 / 40⟩ : ScoredRow).similarity_score| from by
      show ¬ (1 : ℚ) / 100 < |(39 : ℚ) / 40 - 39 / 40|
      rw [sub_self, abs_zero]
      norm_num),
      if_pos (show (⟨rowX, 39 / 40⟩ : ScoredRow).row.accuracy ≠
        (⟨rowY, 39 / 40⟩ : ScoredRow).row.accuracy from by decide)]
    show ((rowY.accuracy.getD 0 : ℤ) : ℚ) - ((rowX.accuracy.getD 0 : ℤ) : ℚ) = 0
    norm_num [rowY, rowX]
  have hsort : sortCmp compareRows [(⟨rowY, 39 / 40⟩ : ScoredRow), ⟨rowX, 39 / 40⟩] =
      [⟨rowY, 39 / 40⟩, ⟨rowX, 39 / 40⟩] := by
    simp only [sortCmp, List.foldl_cons, List.foldl_nil, insertCmp]
    rw [hc]
    norm_num
  simp only [findFuzzyMatches]
  rw [hrows, hd, hsort]
  exact List.take_of_length_le (by norm_num [maxResults])

/-- C3 (counterexample): with the concrete store `stC3` and query
`AB1`, the two returned candidates are tied in similarity score
(`0.975` each) and tied in accuracy after the `null → 0` mapping, yet
they appear with postal codes in strictly *descending* lexicographic
order (`AB1Y` before `AB1X`), because `a.accuracy !== b.accuracy`
(`null` vs `0`) makes the comparator return `(0 || 0) - (null || 0) = 0`
without ever consulting the postal-code tiebreak.  This refutes the
claimed ascending tertiary ordering. -/
theorem C3_counterexample :
    (findFuzzyMatches stC3 ['U', 'S'] ['A', 'B', '1']).map (fun s => s.row.postal_code) =
      [['A', 'B', '1', 'Y'], ['A', 'B', '1', 'X']] ∧
    (findFuzzyMatches stC3 ['U', 'S'] ['A', 'B', '1']).map (fun s => s.similarity_score) =
      [39 / 40, 39 / 40] ∧
    (findFuzzyMatches stC3 ['U', 'S'] ['A', 'B', '1']).map
      (fun s => s.row.accuracy.getD 0) = [0, 0] ∧
    strCompare ['A', 'B', '1', 'X'] ['A', 'B', '1', 'Y'] = -1 := by
  have hsc : strCompare ['A', 'B', '1', 'X'] ['A', 'B', '1', 'Y'] = -1 := by
    simp only [strCompare]
    rw [if_neg (by decide), if_neg (by decide), if_neg (by decide), if_neg (by decide),
      if_neg (by decide), if_neg (by decide), if_pos (by decide)]
  rw [C3eval]
  refine ⟨?_, ?_, ?_, hsc⟩ <;> simp [rowY, rowX]

theorem dedup_replicate_skip (p : Str) (r : Row) :
    ∀ (n : ℕ) (rest : List Row) (seen : List Str), rowKey r ∈ seen →
      dedupScoreFilter p (List.replicate n r ++ rest) seen =
        dedupScoreFilter p rest seen := by
  intro n
  induction n with
  | zero => intro rest seen _; rfl
  | succ n ih =>
    intro rest seen h
    show dedupScoreFilter p (r :: (List.replicate n r ++ rest)) seen = _
    simp only [dedupScoreFilter]
    rw [if_pos h]
    exact ih rest seen h

/-- A low-similarity fuzzy row (`ZZZ` scores `0.1` against `AB1`). -/
def zRow : Row :=
  ⟨['U', 'S'], ['Z', 'Z', 'Z'], ['Z'], [], [], [], [], [], [], none, none, none⟩

/-- Twenty copies of `zRow`: a full-cap fuzzy-pattern result set. -/
def zRows : List Row := List.replicate 20 zRow

/-- A prefix-search row (`AB` scores `13/15` against `AB1`). -/
def abRow : Row :=
  ⟨['U', 'S'], ['A', 'B'], ['W'], [], [], [], [], [], [], none, none, none⟩

/-- Store for the C6 counterexample: the full query `AB1` returns the
twenty-row cap, and the truncated prefix `AB` returns `abRow`. -/
def stC6A : Statements :=
  { findExact := fun _ _ => []
    findFuzzy := fun _ q =>
      if q = ['A', 'B', '1'] then zRows
      else if q = ['A', 'B'] then [abRow] else []
    findByPlace := fun _ _ => [] }

/-- Like `stC6A` but the truncated prefix `AB` returns nothing. -/
def stC6B : Statements :=
  { findExact := fun _ _ => []
    findFuzzy := fun _ q => if q = ['A', 'B', '1'] then zRows else []
    findByPlace := fun _ _ => [] }

/-- Similarity of `AB1` against `ZZZ`: `0.1` (below the threshold). -/
theorem simZZZ : calculateSimilarity ['A', 'B', '1'] ['Z', 'Z', 'Z'] = 1 / 10 := by
  rw [calculateSimilarity_of_ne _ _ (by decide) (by decide),
    show lev ['A', 'B', '1'] ['Z', 'Z', 'Z'] = 3 from by decide,
    show max (['A', 'B', '1'] : Str).length (['Z', 'Z', 'Z'] : Str).length = 3
      from by decide,
    show min (['A', 'B', '1'] : Str).length (['Z', 'Z', 'Z'] : Str).length = 3
      from by decide,
    show commonPrefixLen ['A', 'B', '1'] ['Z', 'Z', 'Z'] = 0 from by decide]
  norm_num [min_def]

/-- Similarity of `AB1` against `AB`: `13/15` (above the threshold). -/
theorem simAB : calculateSimilarity ['A', 'B', '1'] ['A', 'B'] = 13 / 15 := by
  rw [calculateSimilarity_of_ne _ _ (by decide) (by decide),
    show lev ['A', 'B', '1'] ['A', 'B'] = 1 from by decide,
    show max (['A', 'B', '1'] : Str).length (['A', 'B'] : Str).length = 3
      from by decide,
    show min (['A', 'B', '1'] : Str).length (['A', 'B'] : Str).length = 2
      from by decide,
    show commonPrefixLen ['A', 'B', '1'] ['A', 'B'] = 2 from by decide]
  norm_num [min_def]

theorem dedupScoreFilter_nil (p : Str) (seen : List Str) :
    dedupScoreFilter p [] seen = [] := rfl

theorem dedupScoreFilter_cons (p : Str) (r : Row) (rest : List Row) (seen : List Str) :
    dedupScoreFilter p (r :: rest) seen =
      if rowKey r ∈ seen then dedupScoreFilter p rest seen
      else if 1 / 2 ≤ calculateSimilarity p r.postal_code then
        ⟨r, calculateSimilarity p r.postal_code⟩ ::
          dedupScoreFilter p rest (rowKey r :: seen)
      else dedupScoreFilter p rest (rowKey r :: seen) := rfl

theorem partialLoop_nil (st : Statements) (c p : Str) (acc : List Row) :
    partialLoop st c p [] acc = acc := rfl

theorem partialLoop_cons (st : Statements) (c p : Str) (len : ℕ) (rest : List ℕ)
    (acc : List Row) :
    partialLoop st c p (len :: rest) acc =
      if maxResults ≤ (acc ++ st.findFuzzy c (p.take len)).length
      then acc ++ st.findFuzzy c (p.take len)
      else partialLoop st c p rest (acc ++ st.findFuzzy c (p.take len)) := rfl

theorem stC6A_fuzzy_full : stC6A.findFuzzy ['U', 'S'] ['A', 'B', '1'] = zRows := by
  simp only [stC6A]
  rw [if_true]

theorem stC6A_partial : partialPostalCodeSearch stC6A ['U', 'S'] ['A', 'B', '1'] =
    [abRow] := by
  have hf : stC6A.findFuzzy ['U', 'S'] ['A', 'B'] = [abRow] := by
    simp only [stC6A]
    rw [if_neg (by decide), if_true]
  unfold partialPostalCodeSearch
  rw [show countdown ((['A', 'B', '1'] : Str).length - 1) (minLength ['A', 'B', '1']) =
      [2] from by decide,
    partialLoop_cons,
    show (['A', 'B', '1'] : Str).take 2 = ['A', 'B'] from by decide,
    hf, List.nil_append,
    if_neg (show ¬ maxResults ≤ ([abRow] : List Row).length from by decide),
    partialLoop_nil]

theorem stC6B_partial : partialPostalCodeSearch stC6B ['U', 'S'] ['A', 'B', '1'] =
    [] := by
  have hf : stC6B.findFuzzy ['U', 'S'] ['A', 'B'] = [] := by
    simp only [stC6B]
    rw [if_neg (by decide)]
  unfold partialPostalCodeSearch
  rw [show countdown ((['A', 'B', '1'] : Str).length - 1) (minLength ['A', 'B', '1']) =
      [2] from by decide,
    partialLoop_cons,
    show (['A', 'B', '1'] : Str).take 2 = ['A', 'B'] from by decide,
    hf, List.nil_append,
    if_neg (show ¬ maxResults ≤ ([] : List Row).length from by decide),
    partialLoop_nil]

theorem zRows_cons : zRows = zRow :: List.replicate 19 zRow := by
  rw [zRows, show (20 : ℕ) = 19 + 1 from rfl, List.replicate_succ]

theorem dedupC6_tail (rest : List Row) :
    dedupScoreFilter ['A', 'B', '1'] (zRow :: (List.replicate 19 zRow ++ rest)) [] =
      dedupScoreFilter ['A', 'B', '1'] rest [rowKey zRow] := by
  have hZ : calculateSimilarity ['A', 'B', '1'] zRow.postal_code = 1 / 10 := simZZZ
  rw [dedupScoreFilter_cons,
    if_neg (show ¬ rowKey zRow ∈ ([] : List Str) from by decide), hZ,
    if_neg (show ¬ (1 : ℚ) / 2 ≤ 1 / 10 from by norm_num),
    dedup_replicate_skip ['A', 'B', '1'] zRow 19 rest [rowKey zRow] (by decide)]

theorem C6evalA : findFuzzyMatches stC6A ['U', 'S'] ['A', 'B', '1'] =
    [⟨abRow, 13 / 15⟩] := by
  have hB : calculateSimilarity ['A', 'B', '1'] abRow.postal_code = 13 / 15 := simAB
  have hd : dedupScoreFilter ['A', 'B', '1'] [abRow] [rowKey zRow] =
      [⟨abRow, 13 / 15⟩] := by
    rw [dedupScoreFilter_cons,
      if_neg (show ¬ rowKey abRow ∈ [rowKey zRow] from by decide), hB,
      if_pos (show (1 : ℚ) / 2 ≤ 13 / 15 from by norm_num), dedupScoreFilter_nil]
  simp only [findFuzzyMatches, fuzzyPostalCodeSearch, placeNameSearch]
  rw [stC6A_fuzzy_full, stC6A_partial,
    show stC6A.findByPlace ['U', 'S'] ['A', 'B', '1'] = [] from rfl, List.append_nil,
    zRows_cons, List.cons_append, dedupC6_tail, hd]
  rfl

theorem C6evalB : findFuzzyMatches stC6B ['U', 'S'] ['A', 'B', '1'] = [] := by
  simp only [findFuzzyMatches, fuzzyPostalCodeSearch, placeNameSearch]
  rw [show stC6B.findFuzzy ['U', 'S'] ['A', 'B', '1'] = zRows from by
      simp only [stC6B]; rw [if_true],
    stC6B_partial,
    show stC6B.findByPlace ['U', 'S'] ['A', 'B', '1'] = [] from rfl,
    List.append_nil, List.append_nil, zRows_cons,
    show (zRow :: List.replicate 19 zRow : List Row) =
      zRow :: (List.replicate 19 zRow ++ []) from by rw [List.append_nil],
    dedupC6_tail, dedupScoreFilter_nil]
  rfl

set_option maxHeartbeats 1600000 in
/-- C6 (counterexample): the prefix-shrinking strategy is *not* gated
on the other strategies' success.  `stC6A` and `stC6B` agree on
`findExact`, on `findByPlace`, and on the fuzzy-pattern query for the
full query `AB1` — which returns its full cap of 20 rows, so the
fuzzy-pattern strategy has by any reading satisfied the caller — yet
the aggregated outputs differ, because the prefix-shrinking strategy
still ran and queried the truncated prefix `AB`, on which the two
stores disagree. -/
theorem C6_counterexample :
    stC6A.findExact = stC6B.findExact ∧
    stC6A.findByPlace = stC6B.findByPlace ∧
    stC6A.findFuzzy ['U', 'S'] ['A', 'B', '1'] = stC6B.findFuzzy ['U', 'S'] ['A', 'B', '1'] ∧
    (stC6A.findFuzzy ['U', 'S'] ['A', 'B', '1']).length = 20 ∧
    findFuzzyMatches stC6A ['U', 'S'] ['A', 'B', '1'] ≠
      findFuzzyMatches stC6B ['U', 'S'] ['A', 'B', '1'] := by
  refine ⟨rfl, rfl, rfl, rfl, ?_⟩
  rw [C6evalA, C6evalB]
  simp

/-- C6 (amended): the prefix-shrinking strategy runs unconditionally as
the second fuzzy strategy whenever fuzzy aggregation runs (it is not
gated on the fuzzy-pattern strategy's outcome; `findFuzzyMatches`
always feeds all three strategies into the aggregation); when it runs,
it re-queries the fuzzy-pattern store oracle on right-truncations of
the query, from one character shorter down to a floor of
`max(2, floor(0.6 * originalLength))` characters, accumulating
results, and stops early once accumulated candidates reach the cap of
20 (in particular, if the first truncation alone reaches the cap, its
rows are the whole result). -/
theorem C6_partial_search_behavior :
    (∀ (st : Statements) (c p : Str),
      findFuzzyMatches st c p =
        (sortCmp compareRows (dedupScoreFilter p
          (st.findFuzzy c p ++ partialPostalCodeSearch st c p ++
            st.findByPlace c p) [])).take maxResults) ∧
    (∀ (st1 st2 : Statements) (c p : Str),
      (∀ l, minLength p ≤ l → l ≤ p.length - 1 →
        st1.findFuzzy c (p.take l) = st2.findFuzzy c (p.take l)) →
      partialPostalCodeSearch st1 c p = partialPostalCodeSearch st2 c p) ∧
    (∀ (st : Statements) (c p : Str),
      minLength p ≤ p.length - 1 →
      maxResults ≤ (st.findFuzzy c (p.take (p.length - 1))).length →
      partialPostalCodeSearch st c p = st.findFuzzy c (p.take (p.length - 1))) :=
  ⟨fun _ _ _ => rfl, partialPostalCodeSearch_congr, partialPostalCodeSearch_firstStep⟩

/-- Store for the C6 witness: the first truncation `ABCD` of `ABCDE`
returns the full cap of 20 rows. -/
def stCap : Statements :=
  { findExact := fun _ _ => []
    findFuzzy := fun _ q => if q = ['A', 'B', 'C', 'D'] then zRows else []
    findByPlace := fun _ _ => [] }

set_option maxHeartbeats 1600000 in
/-- C6 (witness): concrete instances of the three conjuncts. -/
theorem C6_witness :
    findFuzzyMatches stC6A ['U', 'S'] ['A', 'B', '1'] =
      (sortCmp compareRows (dedupScoreFilter ['A', 'B', '1']
        (stC6A.findFuzzy ['U', 'S'] ['A', 'B', '1'] ++
          partialPostalCodeSearch stC6A ['U', 'S'] ['A', 'B', '1'] ++
          stC6A.findByPlace ['U', 'S'] ['A', 'B', '1']) [])).take maxResults ∧
    partialPostalCodeSearch stC6A ['U', 'S'] ['A', 'B', '1'] =
      partialPostalCodeSearch stC6A ['U', 'S'] ['A', 'B', '1'] ∧
    partialPostalCodeSearch stCap ['U', 'S'] ['A', 'B', 'C', 'D', 'E'] =
      stCap.findFuzzy ['U', 'S'] ((['A', 'B', 'C', 'D', 'E'] : Str).take
        ((['A', 'B', 'C', 'D', 'E'] : Str).length - 1)) :=
  ⟨C6_partial_search_behavior.1 stC6A ['U', 'S'] ['A', 'B', '1'],
    C6_partial_search_behavior.2.1 stC6A stC6A ['U', 'S'] ['A', 'B', '1']
      (fun _ _ _ => rfl),
    C6_partial_search_behavior.2.2 stCap ['U', 'S'] ['A', 'B', 'C', 'D', 'E']
      (by decide) (by exact Nat.le.refl)⟩

end PostalSearch
